import Mathlib

/-!
Verification of the TAPA host task-instantiation and execution model,
embedded from `tapa-lib/tapa/host/task.h`, together with a spec-level model
of the compiler pipeline exercised by the `reuse-work-dir-test` build rule.

The embedding represents a call-site argument as either a plain value or a
sequence object (`tapa::seq`), and threads the mutable state of each
sequence object explicitly: every binding step returns both the value that
the callee receives and the updated argument list (modelling the in-place
`pos++` of the C++ accessor).  Hardware execution is modelled as the trace
of device-runtime operations the driver issues, with the measured times and
the forked child's exit status supplied by an environment record.
-/

namespace Tapa

/-- Modelled from the spec: `tapa::seq`, declared in `tapa/base/task.h`
(a header not among the inspected sources; `host/task.h` accesses its `pos`
field).  A sequence index is a synthetic auto-incrementing counter whose
`int` field `pos` starts at 0. -/
structure seq where
  pos : Int
deriving DecidableEq

/-- A call-site argument: either a plain value (scalar, stream or buffer,
all forwarded unchanged by the generic accessor) or a sequence object. -/
inductive Arg (α : Type) where
  | plain (v : α)
  | seqA (s : seq)
deriving DecidableEq

/-- The value a callee parameter receives after binding: a forwarded plain
value, or the integer drawn from a sequence counter (cast to the declared
parameter type in the C++ source). -/
inductive BoundArg (α : Type) where
  | plainB (v : α)
  | seqB (i : Int)
deriving DecidableEq

/-- `tapa::internal::accessor<Param, Arg>::access(Arg&&)` (software path,
task.h lines 30 and 38): the generic accessor forwards the argument
unchanged; the `seq` specialization evaluates `arg.pos++`, i.e. it yields
the current counter value and increments the counter.  The result pairs
the value handed to the task function with the argument's updated state. -/
def accessor.access {α : Type} : Arg α → BoundArg α × Arg α
  | Arg.plain v => (BoundArg.plainB v, Arg.plain v)
  | Arg.seqA s => (BoundArg.seqB s.pos, Arg.seqA (seq.mk (s.pos + 1)))

/-- The value produced by one access of an argument (first component of
`accessor.access`). -/
def boundOf {α : Type} : Arg α → BoundArg α
  | Arg.plain v => BoundArg.plainB v
  | Arg.seqA s => BoundArg.seqB s.pos

/-- The state of an argument after one access (second component of
`accessor.access`): plain values are unchanged, a sequence counter is
incremented. -/
def bumpArg {α : Type} : Arg α → Arg α
  | Arg.plain v => Arg.plain v
  | Arg.seqA s => Arg.seqA (seq.mk (s.pos + 1))

theorem access_eq {α : Type} (a : Arg α) :
    accessor.access a = (boundOf a, bumpArg a) := by
  cases a <;> rfl

/-- `invoker::functor_with_accessors` (task.h lines 119-126): accesses every
argument once to build the bound functor; returns the list of bound values
together with the updated arguments (the sequence objects' counters have
been incremented in place). -/
def bindArgs {α : Type} : List (Arg α) → List (BoundArg α) × List (Arg α)
  | [] => ([], [])
  | a :: as =>
    let r := accessor.access a
    let rest := bindArgs as
    (r.1 :: rest.1, r.2 :: rest.2)

theorem bindArgs_eq {α : Type} (as : List (Arg α)) :
    bindArgs as = (as.map boundOf, as.map bumpArg) := by
  induction as with
  | nil => rfl
  | cons a as ih => simp [bindArgs, ih, access_eq]

/-- One device-runtime operation issued by the hardware execution driver
(the `fpga::Instance` calls in task.h lines 108-116 and 31-40). -/
inductive DevOp (α : Type) where
  | openDevice (bitstream : String)
  | setArg (idx : Nat) (v : BoundArg α)
  | writeToDevice
  | exec
  | readFromDevice
  | finish
  | computeTimeNanoSeconds
deriving DecidableEq

/-- `accessor<Param, Arg>::access(fpga::Instance&, int&, Arg&&)` (hardware
path, task.h lines 31 and 39): issues `SetArg(idx++, v)` where the generic
accessor forwards the cast argument and the `seq` specialization uses
`arg.pos++`.  Returns the issued operation, the incremented index and the
argument's updated state. -/
def accessor.accessHW {α : Type} (idx : Nat) : Arg α → DevOp α × Nat × Arg α
  | Arg.plain v => (DevOp.setArg idx (BoundArg.plainB v), idx + 1, Arg.plain v)
  | Arg.seqA s =>
    (DevOp.setArg idx (BoundArg.seqB s.pos), idx + 1,
     Arg.seqA (seq.mk (s.pos + 1)))

/-- `invoker::set_fpga_args` (task.h lines 128-137): starting from index
`idx = 0` at the call site, accesses each argument in order through the
hardware accessor, issuing one positional `SetArg` per argument. -/
def set_fpga_args {α : Type} (idx : Nat) :
    List (Arg α) → List (DevOp α) × List (Arg α)
  | [] => ([], [])
  | a :: as =>
    let r := accessor.accessHW idx a
    let rest := set_fpga_args r.2.1 as
    (r.1 :: rest.1, r.2.2 :: rest.2)

/-- The exit status of the forked hardware-execution child as observed by
`wait`: either a normal exit with a code, or an abnormal termination
(`WIFEXITED` false). -/
inductive ChildStatus where
  | exited (code : Nat)
  | signaled
deriving DecidableEq

/-- The environment of one top-level invocation: the steady-clock readings
surrounding the software call, the device compute time the runtime reports,
and the forked child's exit status (EXIT_SUCCESS exactly when the child ran
the device sequence to completion). -/
structure Env where
  tic : Int
  toc : Int
  deviceTimeNs : Int
  childStatus : ChildStatus
deriving DecidableEq

/-- One externally observable event of a top-level invocation: a direct
software call of the task function, a device-runtime operation, or one of
the process-isolation steps (shared-memory allocation of a given byte
length, fork, wait, parent read of the communicated time, shared-memory
release). -/
inductive Event (α : Type) where
  | callF (args : List (Arg α))
  | dev (op : DevOp α)
  | shmAlloc (len : Nat)
  | forked
  | waited (status : ChildStatus)
  | shmRead (v : Int)
  | shmFree (len : Nat)
deriving DecidableEq

/-- The result of a top-level invocation: a reported time in nanoseconds,
or a fatal failure (a failed `CHECK`, which aborts the process). -/
inductive Outcome where
  | ok (ns : Int)
  | fatal
deriving DecidableEq

/-- The private `invoker::invoke(F&&, const std::string&, Args&&...)`
(task.h lines 106-117): opens an `fpga::Instance` from the bitstream, sets
all kernel arguments positionally from index 0, writes to the device,
executes, reads back, finishes, and returns the queried device compute
time.  Produces the device-operation trace, the returned time and the
updated arguments. -/
def invoker.invoke_fpga {α : Type} (bitstream : String) (args : List (Arg α))
    (env : Env) : List (DevOp α) × Int × List (Arg α) :=
  let r := set_fpga_args 0 args
  (DevOp.openDevice bitstream ::
     (r.1 ++ [DevOp.writeToDevice, DevOp.exec, DevOp.readFromDevice,
              DevOp.finish, DevOp.computeTimeNanoSeconds]),
   env.deviceTimeNs, r.2)

/-- The public `invoker::invoke(bool, F&&, const std::string&, Args&&...)`
(task.h lines 70-103).  Empty bitstream: the task function is applied
directly to the arguments once and the elapsed steady-clock time is
returned.  Non-empty bitstream with `run_in_new_process`: a shared-memory
int64 (8 bytes) is allocated, the process forks, the child runs the device
sequence and writes its time to the shared region, and the parent waits;
the parent returns the communicated time only after checking the child
exited with EXIT_SUCCESS, releasing the region after reading it, and any
other status fails a `CHECK` (fatal).  Otherwise the device sequence runs
in the current process. -/
def invoker.invoke_top {α : Type} (run_in_new_process : Bool)
    (bitstream : String) (args : List (Arg α)) (env : Env) :
    List (Event α) × Outcome × List (Arg α) :=
  if bitstream = "" then
    ([Event.callF args], Outcome.ok (env.toc - env.tic), args)
  else if run_in_new_process then
    match env.childStatus with
    | ChildStatus.exited 0 =>
      ([Event.shmAlloc 8, Event.forked, Event.waited (ChildStatus.exited 0),
        Event.shmRead env.deviceTimeNs, Event.shmFree 8],
       Outcome.ok env.deviceTimeNs, args)
    | s => ([Event.shmAlloc 8, Event.forked, Event.waited s],
            Outcome.fatal, args)
  else
    let r := invoker.invoke_fpga bitstream args env
    (r.1.map Event.dev, Outcome.ok r.2.1, r.2.2)

/-- How a child instance is dispatched by `invoker::invoke(int mode, ...)`:
run immediately to completion in the caller, or handed to the cooperative
scheduler with a detach flag. -/
inductive Dispatch where
  | immediate
  | scheduled (detach : Bool)
deriving DecidableEq

/-- The dispatch chosen for a resolved mode (task.h lines 63-67):
`mode > 0` runs the functor immediately; otherwise it is scheduled with
`detach = (mode < 0)`. -/
def dispatchOf (mode : Int) : Dispatch :=
  if 0 < mode then Dispatch.immediate
  else Dispatch.scheduled (decide (mode < 0))

/-- `invoker::invoke(int mode, F&&, Args&&...)` (task.h lines 56-68): binds
the arguments by value through the accessors into a functor, then runs it
immediately if `mode > 0` and otherwise schedules it with
`detach = (mode < 0)`.  Returns the dispatch with the bound argument list,
and the updated arguments. -/
def invoker.invoke_sched {α : Type} (mode : Int) (args : List (Arg α)) :
    (Dispatch × List (BoundArg α)) × List (Arg α) :=
  let r := bindArgs args
  ((dispatchOf mode, r.1), r.2)

/-- Modelled from the spec: the instantiation-mode constants of
`tapa/base/task.h` (not among the inspected sources).  `join`, the default
mode, schedules a child the parent waits for, which the dispatch in
`internal::invoker::invoke` maps to mode 0 (scheduled, not detached);
`detach` is negative (scheduled with the detach flag). -/
def join : Int := 0

/-- Modelled from the spec: the `detach` instantiation mode constant; a
negative mode, scheduled with the detach flag set. -/
def detach : Int := -1

/-- One instantiated child: the resolved instantiation mode, the name given
at the call site, the dispatch performed, and the bound arguments. -/
structure Child (α : Type) where
  mode : Int
  name : String
  dispatch : Dispatch
  args : List (BoundArg α)
deriving DecidableEq

/-- The parent `tapa::task` object (task.h lines 159-234): its protected
`mode_override` field, and the children instantiated so far (recorded in
instantiation order). -/
structure task (α : Type) where
  mode_override : Option Int
  children : List (Child α)
deriving DecidableEq

/-- `task::invoke<mode>(Func&&, const char(&)[N], Args&&...)` (task.h lines
199-208), the overload every other variant delegates to: resolves the mode
as `mode_override.value_or(mode)`, dispatches through
`internal::invoker::invoke`, records the child, and returns the parent. -/
def task.invoke_mode_named {α : Type} (t : task α) (mode : Int)
    (name : String) (args : List (Arg α)) : task α × List (Arg α) :=
  let m := t.mode_override.getD mode
  let r := invoker.invoke_sched m args
  (task.mk t.mode_override (t.children ++ [Child.mk m name r.1.1 r.1.2]),
   r.2)

/-- `task::invoke(Func&&, Args&&...)` (task.h lines 174-178): delegates to
the mode-and-name overload with mode `join` and an empty name. -/
def task.invoke {α : Type} (t : task α) (args : List (Arg α)) :
    task α × List (Arg α) :=
  t.invoke_mode_named join "" args

/-- `task::invoke<mode>(Func&&, Args&&...)` (task.h lines 187-191):
delegates with an empty name. -/
def task.invoke_mode {α : Type} (t : task α) (mode : Int)
    (args : List (Arg α)) : task α × List (Arg α) :=
  t.invoke_mode_named mode "" args

/-- `task::invoke(Func&&, const char(&)[N], Args&&...)` (task.h lines
193-197): delegates with mode `join`. -/
def task.invoke_named {α : Type} (t : task α) (name : String)
    (args : List (Arg α)) : task α × List (Arg α) :=
  t.invoke_mode_named join name args

/-- `task::invoke<mode, n>(Func&&, const char(&)[N], Args&&...)` (task.h
lines 224-230): `for (int i = 0; i < n; ++i) invoke<mode>(func, args...)`,
forwarding the same arguments (hence the same sequence objects) to every
iteration and dropping the name; returns the parent.  The loop body runs
`n` times when `n > 0` and never when `n ≤ 0`. -/
def task.invoke_rep_named {α : Type} (t : task α) (mode n : Int)
    (name : String) (args : List (Arg α)) : task α × List (Arg α) :=
  (List.range n.toNat).foldl
    (fun p _ => task.invoke_mode p.1 mode p.2) (t, args)

/-- `task::invoke<mode, n>(Func&&, Args&&...)` (task.h lines 218-222):
delegates to the named replicating overload with an empty name. -/
def task.invoke_rep {α : Type} (t : task α) (mode n : Int)
    (args : List (Arg α)) : task α × List (Arg α) :=
  t.invoke_rep_named mode n "" args

theorem bumpArg_iterate_plain {α : Type} (v : α) (k : Nat) :
    bumpArg^[k] (Arg.plain v) = Arg.plain v := by
  induction k with
  | zero => rfl
  | succ k ih => rw [Function.iterate_succ_apply]; exact ih

theorem bumpArg_iterate_seq {α : Type} (p : Int) (k : Nat) :
    bumpArg^[k] (Arg.seqA (seq.mk p) : Arg α) =
      Arg.seqA (seq.mk (p + k)) := by
  induction k generalizing p with
  | zero => simp
  | succ k ih =>
    rw [Function.iterate_succ_apply]
    show bumpArg^[k] (Arg.seqA (seq.mk (p + 1)) : Arg α) = _
    rw [ih]
    congr 2
    push_cast
    ring

theorem accessHW_eq {α : Type} (k : Nat) (a : Arg α) :
    accessor.accessHW k a = (DevOp.setArg k (boundOf a), k + 1, bumpArg a) := by
  cases a <;> rfl

theorem set_fpga_args_eq {α : Type} (as : List (Arg α)) : ∀ k : Nat,
    set_fpga_args k as =
      ((as.enumFrom k).map (fun p => DevOp.setArg p.1 (boundOf p.2)),
       as.map bumpArg) := by
  induction as with
  | nil => intro k; rfl
  | cons a as ih =>
    intro k
    simp [set_fpga_args, accessHW_eq, ih (k + 1), List.enumFrom]

/-- The bound argument list the `i`-th replica of a replicated invocation
receives: each argument after `i` prior accesses, accessed once more. -/
def replicaArgs {α : Type} (args : List (Arg α)) (i : Nat) :
    List (BoundArg α) :=
  args.map (fun a => boundOf (bumpArg^[i] a))

theorem invoke_mode_named_eq {α : Type} (t : task α) (mode : Int)
    (name : String) (args : List (Arg α)) :
    t.invoke_mode_named mode name args =
      (task.mk t.mode_override
        (t.children ++
          [Child.mk (t.mode_override.getD mode) name
            (dispatchOf (t.mode_override.getD mode)) (args.map boundOf)]),
       args.map bumpArg) := by
  simp [task.invoke_mode_named, invoker.invoke_sched, bindArgs_eq]

theorem invoke_rep_spec {α : Type} (t : task α) (mode : Int)
    (args : List (Arg α)) (k : Nat) :
    (List.range k).foldl (fun p _ => task.invoke_mode p.1 mode p.2)
        (t, args) =
      (task.mk t.mode_override
        (t.children ++ (List.range k).map (fun i =>
          Child.mk (t.mode_override.getD mode) ""
            (dispatchOf (t.mode_override.getD mode)) (replicaArgs args i))),
       args.map (fun a => bumpArg^[k] a)) := by
  induction k with
  | zero => simp [replicaArgs]
  | succ k ih =>
    rw [List.range_succ, List.foldl_append, ih]
    simp only [List.foldl_cons, List.foldl_nil, task.invoke_mode,
      invoke_mode_named_eq]
    refine Prod.ext ?h1 ?h2
    · simp only [List.range_succ, List.map_append, List.append_assoc,
        List.map_map]
      rfl
    · show (args.map (fun a => bumpArg^[k] a)).map bumpArg = _
      rw [List.map_map]
      apply List.map_congr_left
      intro a _
      show bumpArg (bumpArg^[k] a) = bumpArg^[k + 1] a
      rw [Function.iterate_succ_apply']

theorem invoke_rep_named_eq {α : Type} (t : task α) (mode n : Int)
    (name : String) (args : List (Arg α)) :
    t.invoke_rep_named mode n name args =
      (task.mk t.mode_override
        (t.children ++ (List.range n.toNat).map (fun i =>
          Child.mk (t.mode_override.getD mode) ""
            (dispatchOf (t.mode_override.getD mode)) (replicaArgs args i))),
       args.map (fun a => bumpArg^[n.toNat] a)) :=
  invoke_rep_spec t mode args n.toNat

/-- C2: each access through the sequence accessor returns the counter's
current value and then increments the counter by one; the same stateful
counter is shared by all accesses derived from one sequence object (the
`k`-th access yields the initial value plus `k`, including across
replicated instantiations and across invoke calls reusing the object,
whose updated state an invocation hands back); and the hardware-side
sequence accessor performs the same current-value-then-increment protocol
as the software-side one, producing the same values and the same updated
counter. -/
theorem c2_sequence_accessor (α : Type) :
    (∀ p : Int, accessor.access (Arg.seqA (seq.mk p) : Arg α) =
        (BoundArg.seqB p, Arg.seqA (seq.mk (p + 1)))) ∧
    (∀ v : α, accessor.access (Arg.plain v) =
        (BoundArg.plainB v, Arg.plain v)) ∧
    (∀ (p : Int) (k : Nat),
        boundOf (bumpArg^[k] (Arg.seqA (seq.mk p) : Arg α)) =
          BoundArg.seqB (p + k)) ∧
    (∀ (t : task α) (args : List (Arg α)),
        (t.invoke args).2 = args.map bumpArg) ∧
    (∀ (k : Nat) (a : Arg α),
        (accessor.accessHW k a).1 = DevOp.setArg k (accessor.access a).1 ∧
          (accessor.accessHW k a).2 = (k + 1, (accessor.access a).2)) := by
  refine ⟨fun p => rfl, fun v => rfl, ?_, ?_, ?_⟩
  · intro p k
    rw [bumpArg_iterate_seq]
    rfl
  · intro t args
    simp [task.invoke, invoke_mode_named_eq]
  · intro k a
    rw [accessHW_eq, access_eq]
    exact ⟨rfl, rfl⟩

/-- C9: the internal invocation dispatch binds the arguments into the
functor and runs it immediately in the caller when the mode is strictly
positive; otherwise it hands the functor to the cooperative scheduler,
detached exactly when the mode is strictly negative, so mode zero is
scheduled as a joined (non-detached) instance. -/
theorem c9_dispatch_modes {α : Type} (mode : Int) (args : List (Arg α)) :
    invoker.invoke_sched mode args =
      ((if 0 < mode then Dispatch.immediate
        else Dispatch.scheduled (decide (mode < 0)), args.map boundOf),
       args.map bumpArg) ∧
    invoker.invoke_sched 0 args =
      ((Dispatch.scheduled false, args.map boundOf), args.map bumpArg) := by
  constructor <;> simp [invoker.invoke_sched, bindArgs_eq, dispatchOf]

/-- C10: a replicating invoke with a zero or negative count runs its loop
body zero times: it instantiates no child, leaves the parent's state (and
the arguments' sequence counters) unchanged, and returns the parent. -/
theorem c10_nonpositive_count {α : Type} (t : task α) (mode n : Int)
    (name : String) (args : List (Arg α)) (h : n ≤ 0) :
    t.invoke_rep_named mode n name args = (t, args) := by
  have h0 : n.toNat = 0 := Int.toNat_of_nonpos h
  simp [task.invoke_rep_named, h0]

theorem c10_nonpositive_count_witness :
    ((-3 : Int) ≤ 0) ∧
      (task.mk none ([] : List (Child Int))).invoke_rep_named 1 (-3) "w"
          [Arg.plain (7 : Int)] =
        (task.mk none [], [Arg.plain (7 : Int)]) :=
  ⟨by decide,
   c10_nonpositive_count (task.mk none ([] : List (Child Int))) 1 (-3) "w"
     [Arg.plain (7 : Int)] (by decide)⟩

/-- C7: the plain invoke (no mode, count or name) delegates to the
mode-and-name overload with mode `join` and empty name, instantiating
exactly one child in join mode (scheduled, not detached) with an empty
name when no mode override is set; and every invoke variant returns the
parent task object it was called on (the mode override is preserved and
only the child list grows), so invocations can be chained fluently. -/
theorem c7_plain_invoke {α : Type} (t : task α) (args : List (Arg α))
    (h : t.mode_override = none) :
    t.invoke args = t.invoke_mode_named join "" args ∧
    (t.invoke args).1 =
      task.mk t.mode_override
        (t.children ++
          [Child.mk join "" (Dispatch.scheduled false) (args.map boundOf)]) ∧
    (t.invoke args).2 = args.map bumpArg ∧
    (∀ (mode : Int) (nm : String) (args2 : List (Arg α)),
        ((t.invoke_mode_named mode nm args2).1).mode_override =
            t.mode_override ∧
          ((t.invoke_mode_named mode nm args2).1).children.length =
            t.children.length + 1) ∧
    (∀ (mode n : Int) (nm : String) (args2 : List (Arg α)),
        ((t.invoke_rep_named mode n nm args2).1).mode_override =
          t.mode_override) ∧
    (∀ (nm : String) (args2 : List (Arg α)),
        t.invoke_named nm args2 = t.invoke_mode_named join nm args2) ∧
    (∀ (mode : Int) (args2 : List (Arg α)),
        t.invoke_mode mode args2 = t.invoke_mode_named mode "" args2) := by
  refine ⟨rfl, ?_, ?_, ?_, ?_, fun nm args2 => rfl, fun mode args2 => rfl⟩
  · simp [task.invoke, invoke_mode_named_eq, h, join, dispatchOf]
  · simp [task.invoke, invoke_mode_named_eq]
  · intro mode nm args2
    rw [invoke_mode_named_eq]
    exact ⟨rfl, by simp⟩
  · intro mode n nm args2
    rw [invoke_rep_named_eq]

theorem c7_plain_invoke_witness :
    (task.mk none ([] : List (Child Int))).mode_override = none ∧
      ((task.mk none ([] : List (Child Int))).invoke [Arg.plain (2 : Int)]).1 =
        task.mk none
          [Child.mk join "" (Dispatch.scheduled false)
            [BoundArg.plainB 2]] := by
  refine ⟨rfl, ?_⟩
  have h := (c7_plain_invoke (task.mk none ([] : List (Child Int)))
    [Arg.plain (2 : Int)] rfl).2.1
  simpa [boundOf] using h

/-- C1 (amended): for every nonnegative replication count `n`, the
replicating invoke instantiates exactly `n` child instances, applies the
same resolved instantiation mode to every replica, and passes arguments
identical across replicas except for sequence-index arguments: replica `i`
(in creation order) receives the counter's starting value plus `i`, hence
the values `0..n-1` when the counter starts at 0. -/
theorem c1_replication {α : Type} (t : task α) (mode n : Int)
    (name : String) (args : List (Arg α)) (h : 0 ≤ n) :
    t.invoke_rep_named mode n name args =
      (task.mk t.mode_override
        (t.children ++ (List.range n.toNat).map (fun i =>
          Child.mk (t.mode_override.getD mode) ""
            (dispatchOf (t.mode_override.getD mode)) (replicaArgs args i))),
       args.map (fun a => bumpArg^[n.toNat] a)) ∧
    ((n.toNat : Int) = n) ∧
    ((t.invoke_rep_named mode n name args).1).children.length =
      t.children.length + n.toNat ∧
    (∀ i : Nat, i < n.toNat →
        ((t.invoke_rep_named mode n name args).1).children[
            t.children.length + i]? =
          some (Child.mk (t.mode_override.getD mode) ""
            (dispatchOf (t.mode_override.getD mode)) (replicaArgs args i))) ∧
    (∀ (i j : Nat) (v : α), args[j]? = some (Arg.plain v) →
        (replicaArgs args i)[j]? = some (BoundArg.plainB v)) ∧
    (∀ (i j : Nat) (p : Int), args[j]? = some (Arg.seqA (seq.mk p)) →
        (replicaArgs args i)[j]? = some (BoundArg.seqB (p + i))) := by
  refine ⟨invoke_rep_named_eq t mode n name args, Int.toNat_of_nonneg h,
    ?_, ?_, ?_, ?_⟩
  · rw [invoke_rep_named_eq]
    simp
  · intro i hi
    rw [invoke_rep_named_eq]
    show (t.children ++ (List.range n.toNat).map _)[t.children.length + i]?
      = _
    rw [List.getElem?_append_right (by omega)]
    have hidx : t.children.length + i - t.children.length = i := by omega
    rw [hidx, List.getElem?_map, List.getElem?_range hi]
    rfl
  · intro i j v hj
    simp [replicaArgs, hj, bumpArg_iterate_plain, boundOf]
  · intro i j p hj
    simp [replicaArgs, hj, bumpArg_iterate_seq, boundOf]

theorem c1_replication_counterexample :
    (((task.mk none ([] : List (Child Int))).invoke_rep_named 0 (-1) "x"
        [Arg.plain (5 : Int)]).1).children.length = 0 ∧
      ((0 : Int) ≠ -1) := by
  constructor
  · rfl
  · decide

theorem c1_replication_witness :
    ((0 : Int) ≤ 2) ∧
      (((task.mk none ([] : List (Child Int))).invoke_rep_named 0 2 "x"
          [Arg.seqA (seq.mk 0), Arg.plain (9 : Int)]).1).children.length =
        0 + 2 := by
  refine ⟨by decide, ?_⟩
  have h := (c1_replication (task.mk none ([] : List (Child Int))) 0 2 "x"
    [Arg.seqA (seq.mk 0), Arg.plain (9 : Int)] (by decide)).2.2.1
  simpa using h

/-- C3: with an empty bitstream the device driver is bypassed entirely:
the task function is applied directly to the arguments exactly once (the
trace is the single direct-call event, with no device-runtime operation),
and the returned value is the elapsed steady-clock wall time of that call
in nanoseconds, non-negative because the clock is monotonic. -/
theorem c3_empty_bitstream {α : Type} (rp : Bool) (args : List (Arg α))
    (env : Env) (h : env.tic ≤ env.toc) :
    invoker.invoke_top rp "" args env =
      ([Event.callF args], Outcome.ok (env.toc - env.tic), args) ∧
    0 ≤ env.toc - env.tic ∧
    (∀ op : DevOp α,
        Event.dev op ∉ (invoker.invoke_top rp "" args env).1) := by
  refine ⟨rfl, by omega, ?_⟩
  intro op
  simp [invoker.invoke_top]

theorem c3_empty_bitstream_witness :
    ((3 : Int) ≤ 10) ∧
      invoker.invoke_top false "" [Arg.plain (1 : Int)]
          (Env.mk 3 10 0 ChildStatus.signaled) =
        ([Event.callF [Arg.plain (1 : Int)]], Outcome.ok 7,
         [Arg.plain (1 : Int)]) := by
  refine ⟨by decide, ?_⟩
  have h := (c3_empty_bitstream false [Arg.plain (1 : Int)]
    (Env.mk 3 10 0 ChildStatus.signaled) (by decide)).1
  simpa using h

/-- C4: with a non-empty bitstream and process isolation, the measured
kernel time travels from child to parent through a shared-memory region of
one int64 (8 bytes) allocated before the fork and released after the
parent reads it; the parent returns the communicated time exactly when the
child exited normally with EXIT_SUCCESS, and any other child status is a
fatal execution failure, never a zero or fabricated timing value. -/
theorem c4_process_isolation {α : Type} (bitstream : String)
    (args : List (Arg α)) (env : Env) (h : bitstream ≠ "") :
    (env.childStatus = ChildStatus.exited 0 →
        invoker.invoke_top true bitstream args env =
          ([Event.shmAlloc 8, Event.forked,
            Event.waited (ChildStatus.exited 0),
            Event.shmRead env.deviceTimeNs, Event.shmFree 8],
           Outcome.ok env.deviceTimeNs, args)) ∧
    (env.childStatus ≠ ChildStatus.exited 0 →
        invoker.invoke_top true bitstream args env =
          ([Event.shmAlloc 8, Event.forked, Event.waited env.childStatus],
           Outcome.fatal, args)) ∧
    (∀ ns : Int,
        (invoker.invoke_top true bitstream args env).2.1 = Outcome.ok ns →
          env.childStatus = ChildStatus.exited 0 ∧
            ns = env.deviceTimeNs) := by
  refine ⟨?_, ?_, ?_⟩
  · intro hc
    simp [invoker.invoke_top, h, hc]
  · intro hc
    rcases he : env.childStatus with code | _
    · rcases code with _ | c
      · exact absurd he hc
      · simp [invoker.invoke_top, h, he]
    · simp [invoker.invoke_top, h, he]
  · intro ns hok
    rcases he : env.childStatus with code | _
    · rcases code with _ | c
      · refine ⟨rfl, ?_⟩
        rw [invoker.invoke_top] at hok
        simp [h, he] at hok
        omega
      · rw [invoker.invoke_top] at hok
        simp [h, he] at hok
    · rw [invoker.invoke_top] at hok
      simp [h, he] at hok

theorem c4_process_isolation_witness :
    (("vadd.xclbin" : String) ≠ "") ∧
      (invoker.invoke_top true "vadd.xclbin" [Arg.plain (1 : Int)]
          (Env.mk 0 0 42 ChildStatus.signaled)).2.1 = Outcome.fatal := by
  refine ⟨by decide, ?_⟩
  have h := (c4_process_isolation "vadd.xclbin" [Arg.plain (1 : Int)]
    (Env.mk 0 0 42 ChildStatus.signaled) (by decide)).2.1 (by decide)
  rw [h]

/-- C6: with a non-empty bitstream (and no process isolation) the driver
issues the device-runtime operations in exactly this order: open an
instance from the bitstream, one positional SetArg per argument with
indices 0, 1, 2, ... in parameter order, write to the device, execute,
read back, finish, and query the device compute time, whose value the
invocation returns in nanoseconds. -/
theorem c6_device_op_order {α : Type} (bitstream : String)
    (args : List (Arg α)) (env : Env) (h : bitstream ≠ "") :
    invoker.invoke_top false bitstream args env =
      ((DevOp.openDevice bitstream ::
          (args.enum.map (fun p => DevOp.setArg p.1 (boundOf p.2)) ++
           [DevOp.writeToDevice, DevOp.exec, DevOp.readFromDevice,
            DevOp.finish, DevOp.computeTimeNanoSeconds])).map Event.dev,
       Outcome.ok env.deviceTimeNs, args.map bumpArg) := by
  simp [invoker.invoke_top, h, invoker.invoke_fpga, set_fpga_args_eq,
    List.enum]

theorem c6_device_op_order_witness :
    (("b.xclbin" : String) ≠ "") ∧
      invoker.invoke_top false "b.xclbin" [Arg.seqA (seq.mk 0)]
          (Env.mk 0 0 5 (ChildStatus.exited 0)) =
        ([Event.dev (DevOp.openDevice "b.xclbin"),
          Event.dev (DevOp.setArg 0 (BoundArg.seqB 0 : BoundArg Int)),
          Event.dev DevOp.writeToDevice, Event.dev DevOp.exec,
          Event.dev DevOp.readFromDevice, Event.dev DevOp.finish,
          Event.dev DevOp.computeTimeNanoSeconds],
         Outcome.ok 5, [Arg.seqA (seq.mk 1)]) := by
  refine ⟨by decide, ?_⟩
  have h := c6_device_op_order "b.xclbin"
    ([Arg.seqA (seq.mk 0)] : List (Arg Int))
    (Env.mk 0 0 5 (ChildStatus.exited 0)) (by decide)
  simpa [List.enum, List.enumFrom, boundOf, bumpArg] using h

/-- A C++ type, as far as the static contract in `internal::invoker` needs
to distinguish: `void`, or any other type identified by its name. -/
inductive CppType where
  | void
  | other (tname : String)
deriving DecidableEq

/-- The declared signature of a task function, reduced to what the static
assertion inspects: its return type. -/
structure FuncSig where
  return_type : CppType
deriving DecidableEq

/-- The condition of the `static_assert` in `tapa::internal::invoker`
(task.h lines 52-54): `std::is_same_v<void, return_type>`. -/
def invoker.static_assert_holds (f : FuncSig) : Bool :=
  f.return_type == CppType.void

/-- Template instantiation of `invoker<F>`: succeeds at compile time
exactly when the static assertion holds; a failed instantiation is a build
error, so no invoker exists for the function. -/
def invoker.instantiate (f : FuncSig) : Option Unit :=
  if invoker.static_assert_holds f then some () else none

/-- Compile-then-run: any execution of `task::invoke` requires the invoker
template to have been instantiated at build time (task.h line 204), so a
failed static assertion leaves nothing to execute or schedule. -/
def compile_and_invoke {α : Type} (f : FuncSig) (mode : Int)
    (args : List (Arg α)) :
    Option ((Dispatch × List (BoundArg α)) × List (Arg α)) :=
  (invoker.instantiate f).map (fun _ => invoker.invoke_sched mode args)

/-- C5: a task function whose declared return type is not `void` is
rejected statically: the invoker's static assertion fails, its template
does not instantiate, and no execution or scheduling attempt exists for
any mode or argument list. -/
theorem c5_nonvoid_rejected (f : FuncSig)
    (h : f.return_type ≠ CppType.void) :
    invoker.static_assert_holds f = false ∧
    invoker.instantiate f = none ∧
    (∀ (mode : Int) (args : List (Arg Int)),
        compile_and_invoke f mode args = none) := by
  have hb : invoker.static_assert_holds f = false := by
    unfold invoker.static_assert_holds
    exact beq_eq_false_iff_ne.mpr h
  refine ⟨hb, ?_, ?_⟩
  · simp [invoker.instantiate, hb]
  · intro mode args
    simp [compile_and_invoke, invoker.instantiate, hb]

theorem c5_nonvoid_rejected_witness :
    (FuncSig.mk (CppType.other "int")).return_type ≠ CppType.void ∧
      invoker.instantiate (FuncSig.mk (CppType.other "int")) = none :=
  ⟨by decide,
   (c5_nonvoid_rejected (FuncSig.mk (CppType.other "int")) (by decide)).2.1⟩

/-- Modelled from the spec: the compiler pipeline (the `tapa` CLI driven by
the `reuse-work-dir-test` build rule; its implementation is not among the
inspected sources).  Each stage is a pure function of its declared inputs:
`analyze` maps sources and top-task name to an intermediate
representation, `synth` maps that IR and a platform to per-task modules,
`link` composes the modules, and `pack` serializes the linked design into
artifact bytes. -/
structure Pipeline (Src IR Mods Linked : Type) where
  analyze : Src → String → IR
  synth : IR → String → Mods
  link : Mods → Linked
  pack : Linked → List Nat

/-- Modelled from the spec: the on-disk work directory each stage reads its
predecessor's intermediate from and writes its own into. -/
structure WorkDir (IR Mods Linked : Type) where
  ir : Option IR
  mods : Option Mods
  linked : Option Linked
  artifact : Option (List Nat)

/-- The `analyze` stage: writes the IR into the work directory. -/
def Pipeline.runAnalyze {Src IR Mods Linked : Type}
    (P : Pipeline Src IR Mods Linked) (src : Src) (top : String)
    (w : WorkDir IR Mods Linked) : WorkDir IR Mods Linked :=
  WorkDir.mk (some (P.analyze src top)) w.mods w.linked w.artifact

/-- The `synth` stage: reads the IR left by `analyze` (failing if absent)
and writes the synthesized modules. -/
def Pipeline.runSynth {Src IR Mods Linked : Type}
    (P : Pipeline Src IR Mods Linked) (platform : String)
    (w : WorkDir IR Mods Linked) : Option (WorkDir IR Mods Linked) :=
  w.ir.map (fun ir =>
    WorkDir.mk w.ir (some (P.synth ir platform)) w.linked w.artifact)

/-- The `link` stage: reads the modules left by `synth` (failing if
absent) and writes the linked design. -/
def Pipeline.runLink {Src IR Mods Linked : Type}
    (P : Pipeline Src IR Mods Linked) (w : WorkDir IR Mods Linked) :
    Option (WorkDir IR Mods Linked) :=
  w.mods.map (fun m =>
    WorkDir.mk w.ir w.mods (some (P.link m)) w.artifact)

/-- The `pack` stage: reads the linked design (failing if absent) and
writes the packaged artifact bytes. -/
def Pipeline.runPack {Src IR Mods Linked : Type}
    (P : Pipeline Src IR Mods Linked) (w : WorkDir IR Mods Linked) :
    Option (WorkDir IR Mods Linked) :=
  w.linked.map (fun l =>
    WorkDir.mk w.ir w.mods w.linked (some (P.pack l)))

/-- One full pipeline run from a clean work directory: analyze, then
synth, then link, then pack, returning the packaged artifact bytes. -/
def Pipeline.run {Src IR Mods Linked : Type}
    (P : Pipeline Src IR Mods Linked) (src : Src)
    (top platform : String) : Option (List Nat) :=
  let w1 := P.runAnalyze src top (WorkDir.mk none none none none)
  (P.runSynth platform w1).bind (fun w2 =>
    (P.runLink w2).bind (fun w3 =>
      (P.runPack w3).bind (fun w4 => w4.artifact)))

/-- C8: for fixed sources, top-task name and platform, a full pipeline run
succeeds with the artifact determined by composing the four stage
functions on those inputs alone, so two independent runs from clean work
directories produce byte-for-byte identical packaged artifacts. -/
theorem c8_pipeline_reproducible {Src IR Mods Linked : Type}
    (P : Pipeline Src IR Mods Linked) (src : Src)
    (top platform : String) :
    Pipeline.run P src top platform =
        some (P.pack (P.link (P.synth (P.analyze src top) platform))) ∧
    Pipeline.run P src top platform = Pipeline.run P src top platform :=
  ⟨rfl, rfl⟩

end Tapa
